import Mathlib

/-
Verification of the order-cache service in `src/main/main.go`
(package main: NATS-fed, Postgres-backed in-memory order cache with an
HTTP lookup endpoint).

The Go program is shallowly embedded as executable Lean definitions:
  * the record model (`Message`, `DeliveryInfo`, `PaymentInfo`, `Item`)
    mirrors the Go structs together with their JSON tags;
  * `unmarshalMessage` / `marshalMessage` model `encoding/json`
    (`json.Unmarshal` / `json.Marshal`) for exactly these struct types,
    including Go's zero-value initialisation, unknown-key skipping,
    case-insensitive key matching, `null` handling, nil-slice encoding and
    HTML escaping;
  * `atoi` / `itoa` model `strconv.Atoi` / `strconv.Itoa` (64-bit int);
  * the cache is the map `data map[string]Message`; its `sync.RWMutex`
    makes each individual put/get atomic, so in this sequential embedding
    a put/get is a single function application;
  * `restoreCacheFromDB`, the NATS message callback (`processMessage`),
    and `getDataFromCacheHandler` follow the corresponding Go functions
    line by line;
  * the startup interleaving of `main` (which spawns `subscribeToNATS`
    as a goroutine and then serves HTTP) is modelled as the set of
    event-trace merges in `validStartupTrace`.

`time.Time` (field `DateCreated`) is modelled as its RFC3339 text: the
JSON codec for `time.Time` parses/prints RFC3339 strings, so the embedding
stores the string and validates its syntactic shape on decode.
-/

/-- Go struct `Item` (src/main/main.go lines 61-73), with its JSON tags
`chrt_id`, `track_number`, `price`, `rid`, `name`, `sale`, `size`,
`total_price`, `nm_id`, `brand`, `status`. -/
structure Item where
  chrtID      : Int
  trackNumber : String
  price       : Int
  rid         : String
  name        : String
  sale        : Int
  size        : String
  totalPrice  : Int
  nmID        : Int
  brand       : String
  status      : Int
deriving DecidableEq, Repr

/-- Go struct `DeliveryInfo` (lines 36-44), JSON tags `name`, `phone`,
`zip`, `city`, `address`, `region`, `email`. -/
structure DeliveryInfo where
  name    : String
  phone   : String
  zip     : String
  city    : String
  address : String
  region  : String
  email   : String
deriving DecidableEq, Repr

/-- Go struct `PaymentInfo` (lines 47-58), JSON tags `transaction`,
`request_id`, `currency`, `provider`, `amount`, `payment_dt`, `bank`,
`delivery_cost`, `goods_total`, `custom_fee`. -/
structure PaymentInfo where
  transaction  : String
  requestID    : String
  currency     : String
  provider     : String
  amount       : Int
  paymentDT    : Int
  bank         : String
  deliveryCost : Int
  goodsTotal   : Int
  customFee    : Int
deriving DecidableEq, Repr

/-- Go struct `Message` (lines 18-33): the order record.  `items` is a Go
slice `[]Item`; a Go slice distinguishes nil from empty (they marshal to
`null` resp. `[]`), so it is embedded as `Option (List Item)` with `none`
for the nil slice.  `dateCreated` is the RFC3339 text of the `time.Time`
value (zero value `0001-01-01T00:00:00Z`). -/
structure Message where
  orderUID        : String
  trackNumber     : String
  entry           : String
  delivery        : DeliveryInfo
  payment         : PaymentInfo
  items           : Option (List Item)
  locale          : String
  internalSig     : String
  customerID      : String
  deliveryService : String
  shardKey        : String
  smID            : Int
  dateCreated     : String
  oofShard        : String
deriving DecidableEq, Repr

/-- Go zero value of `DeliveryInfo`. -/
def zeroDeliveryInfo : DeliveryInfo :=
  ⟨"", "", "", "", "", "", ""⟩

/-- Go zero value of `PaymentInfo`. -/
def zeroPaymentInfo : PaymentInfo :=
  ⟨"", "", "", "", 0, 0, "", 0, 0, 0⟩

/-- RFC3339 text of the zero `time.Time`. -/
def zeroTime : String := "0001-01-01T00:00:00Z"

/-- Go zero value of `Message`: the state of `var message Message` before
`json.Unmarshal` fills it in. -/
def zeroMessage : Message where
  orderUID        := ""
  trackNumber     := ""
  entry           := ""
  delivery        := zeroDeliveryInfo
  payment         := zeroPaymentInfo
  items           := none
  locale          := ""
  internalSig     := ""
  customerID      := ""
  deliveryService := ""
  shardKey        := ""
  smID            := 0
  dateCreated     := zeroTime
  oofShard        := ""

/-- JSON syntax tree.  Numbers keep their source literal so that decoding
into a Go `int` can reject fractional/exponent forms exactly as
`encoding/json` does. -/
inductive Json where
  | null
  | bool (b : Bool)
  | num  (lit : String)
  | str  (s : String)
  | arr  (elems : List Json)
  | obj  (fields : List (String × Json))

/-- JSON insignificant whitespace (RFC 8259 / Go scanner). -/
def isWsChar (c : Char) : Bool :=
  c = ' ' || c = '\t' || c = '\n' || c = '\r'

def skipWs : List Char → List Char
  | [] => []
  | c :: cs => if isWsChar c then skipWs cs else c :: cs

def isDigit (c : Char) : Bool := '0' ≤ c && c ≤ '9'

/-- Split a leading run of decimal digits. -/
def takeDigits : List Char → List Char × List Char
  | [] => ([], [])
  | c :: cs =>
    if isDigit c then
      let p := takeDigits cs
      (c :: p.1, p.2)
    else ([], c :: cs)

def hexVal (c : Char) : Option Nat :=
  if '0' ≤ c ∧ c ≤ '9' then some (c.toNat - '0'.toNat)
  else if 'a' ≤ c ∧ c ≤ 'f' then some (c.toNat - 'a'.toNat + 10)
  else if 'A' ≤ c ∧ c ≤ 'F' then some (c.toNat - 'A'.toNat + 10)
  else none

/-- Parse the body of a JSON string after the opening quote; returns the
decoded characters and the input remaining after the closing quote.
Handles the standard escapes and `\uXXXX`; raw control characters are
rejected as in Go's scanner. -/
def parseStringBody : Nat → List Char → Option (List Char × List Char)
  | 0, _ => none
  | _ + 1, [] => none
  | fuel + 1, c :: cs =>
    if c = '"' then some ([], cs)
    else if c = '\\' then
      match cs with
      | [] => none
      | e :: rest =>
        let cont := fun (d : Char) (rest2 : List Char) =>
          (parseStringBody fuel rest2).map fun p => (d :: p.1, p.2)
        if e = '"' then cont '"' rest
        else if e = '\\' then cont '\\' rest
        else if e = '/' then cont '/' rest
        else if e = 'n' then cont '\n' rest
        else if e = 't' then cont '\t' rest
        else if e = 'r' then cont '\r' rest
        else if e = 'b' then cont (Char.ofNat 8) rest
        else if e = 'f' then cont (Char.ofNat 12) rest
        else if e = 'u' then
          match rest with
          | h1 :: h2 :: h3 :: h4 :: rest2 =>
            match hexVal h1, hexVal h2, hexVal h3, hexVal h4 with
            | some a, some b, some c2, some d =>
              cont (Char.ofNat (((a * 16 + b) * 16 + c2) * 16 + d)) rest2
            | _, _, _, _ => none
          | _ => none
        else none
    else if c.toNat < 32 then none
    else (parseStringBody fuel cs).map fun p => (c :: p.1, p.2)

/-- Fractional part of a JSON number literal (possibly absent). -/
def parseFracPart : List Char → Option (List Char × List Char)
  | '.' :: rest =>
    let p := takeDigits rest
    if p.1 = [] then none else some ('.' :: p.1, p.2)
  | cs => some ([], cs)

def parseExpDigits (e : Char) : List Char → Option (List Char × List Char)
  | '+' :: rest =>
    let p := takeDigits rest
    if p.1 = [] then none else some (e :: '+' :: p.1, p.2)
  | '-' :: rest =>
    let p := takeDigits rest
    if p.1 = [] then none else some (e :: '-' :: p.1, p.2)
  | cs =>
    let p := takeDigits cs
    if p.1 = [] then none else some (e :: p.1, p.2)

/-- Exponent part of a JSON number literal (possibly absent). -/
def parseExpPart : List Char → Option (List Char × List Char)
  | 'e' :: rest => parseExpDigits 'e' rest
  | 'E' :: rest => parseExpDigits 'E' rest
  | cs => some ([], cs)

/-- JSON number literal: `-? (0 | [1-9][0-9]*) frac? exp?`.  Returns the
literal characters and the rest of the input. -/
def parseNumberLit (cs : List Char) : Option (List Char × List Char) :=
  let withInt := fun (sign intPart : List Char) (rest : List Char) =>
    match parseFracPart rest with
    | none => none
    | some (frac, rest2) =>
      match parseExpPart rest2 with
      | none => none
      | some (ex, rest3) => some (sign ++ intPart ++ frac ++ ex, rest3)
  match cs with
  | '-' :: rest =>
    (match rest with
     | '0' :: rest2 => withInt ['-'] ['0'] rest2
     | c :: rest2 =>
       if isDigit c then
         let p := takeDigits rest2
         withInt ['-'] (c :: p.1) p.2
       else none
     | [] => none)
  | '0' :: rest => withInt [] ['0'] rest
  | c :: rest =>
    if isDigit c then
      let p := takeDigits rest
      withInt [] (c :: p.1) p.2
    else none
  | [] => none

/-- Literal `{` (written via its code point). -/
def lbraceChar : Char := Char.ofNat 123

/-- Literal `}` (written via its code point). -/
def rbraceChar : Char := Char.ofNat 125

mutual

/-- Recursive-descent JSON value parser.  `fuel` bounds the recursion; the
top-level caller supplies more fuel than any input of that length can
consume, so fuel exhaustion never fires on inputs the program sees. -/
def parseValue : Nat → List Char → Option (Json × List Char)
  | 0, _ => none
  | fuel + 1, cs =>
    match skipWs cs with
    | 'n' :: 'u' :: 'l' :: 'l' :: rest => some (.null, rest)
    | 't' :: 'r' :: 'u' :: 'e' :: rest => some (.bool true, rest)
    | 'f' :: 'a' :: 'l' :: 's' :: 'e' :: rest => some (.bool false, rest)
    | '"' :: rest =>
      (parseStringBody (rest.length + 1) rest).map fun p => (.str ⟨p.1⟩, p.2)
    | '[' :: rest =>
      (match skipWs rest with
       | ']' :: rest2 => some (.arr [], rest2)
       | rest2 => parseArrayElems fuel rest2 [])
    | c :: rest =>
      if c = lbraceChar then
        match skipWs rest with
        | c2 :: rest2 =>
          if c2 = rbraceChar then some (.obj [], rest2)
          else parseObjFields fuel (c2 :: rest2) []
        | [] => none
      else
        (parseNumberLit (c :: rest)).map fun p => (.num ⟨p.1⟩, p.2)
    | [] => none

/-- Elements of a JSON array after `[` (first element pending). -/
def parseArrayElems : Nat → List Char → List Json → Option (Json × List Char)
  | 0, _, _ => none
  | fuel + 1, cs, acc =>
    match parseValue fuel cs with
    | none => none
    | some (v, rest) =>
      match skipWs rest with
      | ',' :: rest2 => parseArrayElems fuel rest2 (v :: acc)
      | ']' :: rest2 => some (.arr (v :: acc).reverse, rest2)
      | _ => none

/-- Members of a JSON object after `{` (first member pending). -/
def parseObjFields : Nat → List Char → List (String × Json) →
    Option (Json × List Char)
  | 0, _, _ => none
  | fuel + 1, cs, acc =>
    match skipWs cs with
    | '"' :: rest =>
      match parseStringBody (rest.length + 1) rest with
      | none => none
      | some (key, rest2) =>
        match skipWs rest2 with
        | ':' :: rest3 =>
          match parseValue fuel rest3 with
          | none => none
          | some (v, rest4) =>
            match skipWs rest4 with
            | ',' :: rest5 => parseObjFields fuel rest5 ((⟨key⟩, v) :: acc)
            | c :: rest5 =>
              if c = rbraceChar then
                some (.obj ((⟨key⟩, v) :: acc).reverse, rest5)
              else none
            | [] => none
        | _ => none
    | _ => none

end

/-- `json.Unmarshal`, syntactic phase: one JSON value followed by at most
whitespace (Go rejects trailing data). -/
def parseJsonTop (s : String) : Option Json :=
  match parseValue (s.length + 2) s.toList with
  | none => none
  | some (j, rest) => if skipWs rest = [] then some j else none

/-- Decimal digits to a natural number; `none` when empty or any
non-digit appears. -/
def digitsToNat (cs : List Char) : Option Nat :=
  match cs with
  | [] => none
  | _ =>
    cs.foldl
      (fun acc c =>
        acc.bind fun n =>
          if isDigit c then some (n * 10 + (c.toNat - '0'.toNat)) else none)
      (some 0)

/-- Largest Go `int64` value. -/
def int64Max : Int := 9223372036854775807

/-- `strconv.ParseInt`-style parse of an integer literal (an optional sign
followed by decimal digits), with the 64-bit range check.  This is exactly
`strconv.Atoi` (Go `int` is 64-bit here), and also the conversion
`database/sql` applies when scanning a textual column into a Go `int`. -/
def atoi (s : String) : Option Int :=
  match s.toList with
  | '+' :: rest =>
    (digitsToNat rest).bind fun n =>
      if (n : Int) ≤ int64Max then some (n : Int) else none
  | '-' :: rest =>
    (digitsToNat rest).bind fun n =>
      if (n : Int) ≤ int64Max + 1 then some (-(n : Int)) else none
  | l =>
    (digitsToNat l).bind fun n =>
      if (n : Int) ≤ int64Max then some (n : Int) else none

def natToDigitsAux : Nat → Nat → List Char → List Char
  | 0, _, acc => acc
  | _ + 1, 0, acc => acc
  | fuel + 1, n + 1, acc =>
    natToDigitsAux fuel ((n + 1) / 10)
      (Char.ofNat ((n + 1) % 10 + '0'.toNat) :: acc)

/-- Decimal rendering of a natural number. -/
def natToString (n : Nat) : String :=
  if n = 0 then "0" else ⟨natToDigitsAux (n + 1) n []⟩

/-- `strconv.Itoa`. -/
def itoa (i : Int) : String :=
  if i < 0 then "-" ++ natToString i.natAbs else natToString i.natAbs

/-- Go JSON object-key-to-struct-field matching: an exact tag match, or a
case-insensitive one (the tags of each struct here are pairwise distinct
case-insensitively, so checking the fields in order with this predicate
coincides with Go's preference for exact matches). -/
def keyMatch (k tag : String) : Bool :=
  k = tag || k.toLower = tag.toLower

/-- Decode a JSON value into a Go `int`/`int64` field: only an integer
literal within the 64-bit range is accepted (Go runs `ParseInt` on the
literal, so fractional or exponent forms fail). -/
def parseIntLit (lit : String) : Option Int :=
  match lit.toList with
  | '-' :: rest =>
    (digitsToNat rest).bind fun n =>
      if (n : Int) ≤ int64Max + 1 then some (-(n : Int)) else none
  | l =>
    (digitsToNat l).bind fun n =>
      if (n : Int) ≤ int64Max then some (n : Int) else none

/-- Unmarshal a JSON value into a `string` field holding current value
`cur`; `null` leaves the field unchanged (Go semantics). -/
def decStrField (v : Json) (cur : α) (set : String → α) : Option α :=
  match v with
  | .null => some cur
  | .str s => some (set s)
  | _ => none

/-- Unmarshal a JSON value into an `int`/`int64` field. -/
def decIntField (v : Json) (cur : α) (set : Int → α) : Option α :=
  match v with
  | .null => some cur
  | .num lit => (parseIntLit lit).map set
  | _ => none

/-- Fold the members of a JSON object into a struct value, one member at a
time in source order (Go decodes object members sequentially, so a later
duplicate key overwrites an earlier one); the first failing member makes
the whole decode fail. -/
def decodeFields (step : α → String × Json → Option α) (init : α)
    (fields : List (String × Json)) : Option α :=
  fields.foldl (fun acc kv => acc.bind fun a => step a kv) (some init)

/-- One object member into a `DeliveryInfo` being decoded in place. -/
def setDeliveryField (d : DeliveryInfo) (k : String) (v : Json) :
    Option DeliveryInfo :=
  if keyMatch k "name" then decStrField v d fun s => { d with name := s }
  else if keyMatch k "phone" then decStrField v d fun s => { d with phone := s }
  else if keyMatch k "zip" then decStrField v d fun s => { d with zip := s }
  else if keyMatch k "city" then decStrField v d fun s => { d with city := s }
  else if keyMatch k "address" then
    decStrField v d fun s => { d with address := s }
  else if keyMatch k "region" then
    decStrField v d fun s => { d with region := s }
  else if keyMatch k "email" then decStrField v d fun s => { d with email := s }
  else some d

/-- Unmarshal into the `Delivery` struct field (in place, starting from
its current value, as Go does for a nested struct). -/
def decodeDeliveryInfo (cur : DeliveryInfo) (v : Json) : Option DeliveryInfo :=
  match v with
  | .null => some cur
  | .obj fs => decodeFields (fun d kv => setDeliveryField d kv.1 kv.2) cur fs
  | _ => none

/-- One object member into a `PaymentInfo` being decoded in place. -/
def setPaymentField (p : PaymentInfo) (k : String) (v : Json) :
    Option PaymentInfo :=
  if keyMatch k "transaction" then
    decStrField v p fun s => { p with transaction := s }
  else if keyMatch k "request_id" then
    decStrField v p fun s => { p with requestID := s }
  else if keyMatch k "currency" then
    decStrField v p fun s => { p with currency := s }
  else if keyMatch k "provider" then
    decStrField v p fun s => { p with provider := s }
  else if keyMatch k "amount" then
    decIntField v p fun n => { p with amount := n }
  else if keyMatch k "payment_dt" then
    decIntField v p fun n => { p with paymentDT := n }
  else if keyMatch k "bank" then decStrField v p fun s => { p with bank := s }
  else if keyMatch k "delivery_cost" then
    decIntField v p fun n => { p with deliveryCost := n }
  else if keyMatch k "goods_total" then
    decIntField v p fun n => { p with goodsTotal := n }
  else if keyMatch k "custom_fee" then
    decIntField v p fun n => { p with customFee := n }
  else some p

/-- Unmarshal into the `Payment` struct field. -/
def decodePaymentInfo (cur : PaymentInfo) (v : Json) : Option PaymentInfo :=
  match v with
  | .null => some cur
  | .obj fs => decodeFields (fun p kv => setPaymentField p kv.1 kv.2) cur fs
  | _ => none

/-- Go zero value of `Item` (fresh slice elements start from it). -/
def zeroItem : Item := ⟨0, "", 0, "", "", 0, "", 0, 0, "", 0⟩

/-- One object member into an `Item` being decoded in place. -/
def setItemField (it : Item) (k : String) (v : Json) : Option Item :=
  if keyMatch k "chrt_id" then decIntField v it fun n => { it with chrtID := n }
  else if keyMatch k "track_number" then
    decStrField v it fun s => { it with trackNumber := s }
  else if keyMatch k "price" then
    decIntField v it fun n => { it with price := n }
  else if keyMatch k "rid" then decStrField v it fun s => { it with rid := s }
  else if keyMatch k "name" then decStrField v it fun s => { it with name := s }
  else if keyMatch k "sale" then decIntField v it fun n => { it with sale := n }
  else if keyMatch k "size" then decStrField v it fun s => { it with size := s }
  else if keyMatch k "total_price" then
    decIntField v it fun n => { it with totalPrice := n }
  else if keyMatch k "nm_id" then decIntField v it fun n => { it with nmID := n }
  else if keyMatch k "brand" then
    decStrField v it fun s => { it with brand := s }
  else if keyMatch k "status" then
    decIntField v it fun n => { it with status := n }
  else some it

/-- Unmarshal one array element into an `Item`: a fresh element starts at
the zero value; a `null` element leaves it zero (Go no-op on structs). -/
def decodeItem (v : Json) : Option Item :=
  match v with
  | .null => some zeroItem
  | .obj fs => decodeFields (fun it kv => setItemField it kv.1 kv.2) zeroItem fs
  | _ => none

/-- Unmarshal into the `Items []Item` field: `null` sets the slice to nil;
an array decodes its elements in order. -/
def decodeItems (v : Json) : Option (Option (List Item)) :=
  match v with
  | .null => some none
  | .arr es => (es.mapM decodeItem).map some
  | _ => none

/-- Syntactic shape of an RFC3339 timestamp's zone suffix. -/
def rfc3339Zone : List Char → Bool
  | ['Z'] => true
  | [s, h1, h2, ':', m1, m2] =>
    (s = '+' || s = '-') && isDigit h1 && isDigit h2 && isDigit m1 && isDigit m2
  | _ => false

/-- Syntactic shape of what follows the seconds of an RFC3339 timestamp:
an optional fractional part, then the zone. -/
def rfc3339Tail : List Char → Bool
  | '.' :: rest =>
    let p := takeDigits rest
    decide (p.1 ≠ []) && rfc3339Zone p.2
  | cs => rfc3339Zone cs

/-- Syntactic shape of an RFC3339 timestamp (what `time.Time`'s JSON
codec accepts).  Calendar-range validation (month at most 12, and so on)
is part of the standard library's parser and is not modelled; no claim
depends on it. -/
def isRFC3339 (s : String) : Bool :=
  match s.toList with
  | y1 :: y2 :: y3 :: y4 :: '-' :: mo1 :: mo2 :: '-' :: d1 :: d2 :: 'T' ::
    h1 :: h2 :: ':' :: mi1 :: mi2 :: ':' :: s1 :: s2 :: rest =>
    [y1, y2, y3, y4, mo1, mo2, d1, d2, h1, h2, mi1, mi2, s1, s2].all isDigit
      && rfc3339Tail rest
  | _ => false

/-- One object member into the `Message` being decoded (tags from
src/main/main.go lines 18-33; unknown keys are skipped). -/
def setMessageField (m : Message) (k : String) (v : Json) : Option Message :=
  if keyMatch k "order_uid" then
    decStrField v m fun s => { m with orderUID := s }
  else if keyMatch k "track_number" then
    decStrField v m fun s => { m with trackNumber := s }
  else if keyMatch k "entry" then decStrField v m fun s => { m with entry := s }
  else if keyMatch k "delivery" then
    (decodeDeliveryInfo m.delivery v).map fun d => { m with delivery := d }
  else if keyMatch k "payment" then
    (decodePaymentInfo m.payment v).map fun p => { m with payment := p }
  else if keyMatch k "items" then
    (decodeItems v).map fun it => { m with items := it }
  else if keyMatch k "locale" then
    decStrField v m fun s => { m with locale := s }
  else if keyMatch k "internal_signature" then
    decStrField v m fun s => { m with internalSig := s }
  else if keyMatch k "customer_id" then
    decStrField v m fun s => { m with customerID := s }
  else if keyMatch k "delivery_service" then
    decStrField v m fun s => { m with deliveryService := s }
  else if keyMatch k "shardkey" then
    decStrField v m fun s => { m with shardKey := s }
  else if keyMatch k "sm_id" then decIntField v m fun n => { m with smID := n }
  else if keyMatch k "date_created" then
    (match v with
     | .null => some m
     | .str s => if isRFC3339 s then some { m with dateCreated := s } else none
     | _ => none)
  else if keyMatch k "oof_shard" then
    decStrField v m fun s => { m with oofShard := s }
  else some m

/-- `json.Unmarshal(data, &message)` for `var message Message`: parse the
payload, then decode the top-level object into the zero `Message`.  A
top-level `null` is Go's documented no-op (the zero value survives and no
error is reported); any other non-object value is an error. -/
def unmarshalMessage (s : String) : Option Message :=
  match parseJsonTop s with
  | some (.obj fs) =>
    decodeFields (fun m kv => setMessageField m kv.1 kv.2) zeroMessage fs
  | some .null => some zeroMessage
  | _ => none

def hexDigitChar (n : Nat) : Char :=
  if n < 10 then Char.ofNat ('0'.toNat + n) else Char.ofNat ('a'.toNat + n - 10)

/-- Go's JSON string escaping (with the default HTML escaping of `<`,
`>`, `&`, and of U+2028/U+2029): quote, backslash, the three HTML
characters and control characters are escaped, `\n` `\r` `\t` specially,
other control characters as `\u00xx`. -/
def escapeJsonChar (c : Char) : List Char :=
  if c = '"' then ['\\', '"']
  else if c = '\\' then ['\\', '\\']
  else if c = '\n' then ['\\', 'n']
  else if c = '\r' then ['\\', 'r']
  else if c = '\t' then ['\\', 't']
  else if c = '<' then ['\\', 'u', '0', '0', '3', 'c']
  else if c = '>' then ['\\', 'u', '0', '0', '3', 'e']
  else if c = '&' then ['\\', 'u', '0', '0', '2', '6']
  else if c.toNat = 8232 then ['\\', 'u', '2', '0', '2', '8']
  else if c.toNat = 8233 then ['\\', 'u', '2', '0', '2', '9']
  else if c.toNat < 32 then
    ['\\', 'u', '0', '0', hexDigitChar (c.toNat / 16), hexDigitChar (c.toNat % 16)]
  else [c]

/-- Marshal a Go string as a quoted JSON string. -/
def quoteJsonString (s : String) : String :=
  "\"" ++ ⟨s.toList.foldr (fun c acc => escapeJsonChar c ++ acc) []⟩ ++ "\""

/-- Literal `{` as a one-character string. -/
def lbrace : String := ⟨[lbraceChar]⟩

/-- Literal `}` as a one-character string. -/
def rbrace : String := ⟨[rbraceChar]⟩

/-- `json.Marshal` of an `Item`: members in struct-field order. -/
def marshalItem (it : Item) : String :=
  lbrace ++ "\"chrt_id\":" ++ itoa it.chrtID
  ++ ",\"track_number\":" ++ quoteJsonString it.trackNumber
  ++ ",\"price\":" ++ itoa it.price
  ++ ",\"rid\":" ++ quoteJsonString it.rid
  ++ ",\"name\":" ++ quoteJsonString it.name
  ++ ",\"sale\":" ++ itoa it.sale
  ++ ",\"size\":" ++ quoteJsonString it.size
  ++ ",\"total_price\":" ++ itoa it.totalPrice
  ++ ",\"nm_id\":" ++ itoa it.nmID
  ++ ",\"brand\":" ++ quoteJsonString it.brand
  ++ ",\"status\":" ++ itoa it.status
  ++ rbrace

/-- `json.Marshal` of a `DeliveryInfo`. -/
def marshalDeliveryInfo (d : DeliveryInfo) : String :=
  lbrace ++ "\"name\":" ++ quoteJsonString d.name
  ++ ",\"phone\":" ++ quoteJsonString d.phone
  ++ ",\"zip\":" ++ quoteJsonString d.zip
  ++ ",\"city\":" ++ quoteJsonString d.city
  ++ ",\"address\":" ++ quoteJsonString d.address
  ++ ",\"region\":" ++ quoteJsonString d.region
  ++ ",\"email\":" ++ quoteJsonString d.email
  ++ rbrace

/-- `json.Marshal` of a `PaymentInfo`. -/
def marshalPaymentInfo (p : PaymentInfo) : String :=
  lbrace ++ "\"transaction\":" ++ quoteJsonString p.transaction
  ++ ",\"request_id\":" ++ quoteJsonString p.requestID
  ++ ",\"currency\":" ++ quoteJsonString p.currency
  ++ ",\"provider\":" ++ quoteJsonString p.provider
  ++ ",\"amount\":" ++ itoa p.amount
  ++ ",\"payment_dt\":" ++ itoa p.paymentDT
  ++ ",\"bank\":" ++ quoteJsonString p.bank
  ++ ",\"delivery_cost\":" ++ itoa p.deliveryCost
  ++ ",\"goods_total\":" ++ itoa p.goodsTotal
  ++ ",\"custom_fee\":" ++ itoa p.customFee
  ++ rbrace

/-- `json.Marshal` of the `Items` slice: a nil slice marshals to `null`,
otherwise the elements in order. -/
def marshalItems : Option (List Item) → String
  | none => "null"
  | some xs => "[" ++ String.intercalate "," (xs.map marshalItem) ++ "]"

/-- `json.Marshal(message)` (used by `saveMessageToDB`, line 181, and by
`getDataFromCacheHandler`, line 213): members in struct-field order with
the struct's JSON tags.  `encoding/json` cannot fail on this type — a
`Message` contains only strings, integers, a time value and nested
structs of the same, none of which is an unsupported kind — so the
encoder is total. -/
def marshalMessage (m : Message) : String :=
  lbrace ++ "\"order_uid\":" ++ quoteJsonString m.orderUID
  ++ ",\"track_number\":" ++ quoteJsonString m.trackNumber
  ++ ",\"entry\":" ++ quoteJsonString m.entry
  ++ ",\"delivery\":" ++ marshalDeliveryInfo m.delivery
  ++ ",\"payment\":" ++ marshalPaymentInfo m.payment
  ++ ",\"items\":" ++ marshalItems m.items
  ++ ",\"locale\":" ++ quoteJsonString m.locale
  ++ ",\"internal_signature\":" ++ quoteJsonString m.internalSig
  ++ ",\"customer_id\":" ++ quoteJsonString m.customerID
  ++ ",\"delivery_service\":" ++ quoteJsonString m.deliveryService
  ++ ",\"shardkey\":" ++ quoteJsonString m.shardKey
  ++ ",\"sm_id\":" ++ itoa m.smID
  ++ ",\"date_created\":" ++ quoteJsonString m.dateCreated
  ++ ",\"oof_shard\":" ++ quoteJsonString m.oofShard
  ++ rbrace

/-- The error side of `json.Marshal(message)`: always `some` for this
type (see `marshalMessage`); kept as an `Option` so the handler's
500-error branch can be stated and shown unreachable. -/
def marshalMessageResult (m : Message) : Option String :=
  some (marshalMessage m)

/-- The contents of `Cache` (src/main/main.go lines 76-79): the map
`data map[string]Message`, embedded extensionally as its lookup function.
The `sync.RWMutex` in the struct makes each put/get atomic; in this
sequential embedding an atomic put/get is one function application. -/
def CacheData : Type := String → Option Message

/-- `make(map[string]Message)` (line 227). -/
def emptyCache : CacheData := fun _ => none

/-- `cache.data[key] = message` under `cache.Lock()`. -/
def cachePutKey (c : CacheData) (key : String) (m : Message) : CacheData :=
  fun k => if k = key then some m else c k

/-- `message, ok := cache.data[k]` under `cache.RLock()`. -/
def cacheGet (c : CacheData) (k : String) : Option Message := c k

/-- The put the ingestion path performs: keyed by the record's own
`OrderUID` (line 130). -/
def cachePut (c : CacheData) (m : Message) : CacheData :=
  cachePutKey c m.orderUID m

/-- A cache built from a sequence of ingestion puts. -/
def buildCache (rs : List Message) : CacheData :=
  rs.foldl cachePut emptyCache

/-- `restoreCacheFromDB` (lines 149-177).  Each durable row is the pair
`(id, data)` as stored by `INSERT INTO messages (id, data)` — both
columns reach the adapter as text.  Per row the Go code first scans `id`
into `var id int` (the `database/sql` conversion of a textual value into
an `int`, modelled by `atoi`) and on error RETURNS the error; then
`json.Unmarshal`s `data` and on error RETURNS the error; otherwise it
stores the message under key `strconv.Itoa(id)` and continues.  The
returned flag is `true` when no error was returned; puts made before an
error persist, because the cache is mutated in place. -/
def restoreCacheFromDB (cache : CacheData) :
    List (String × String) → CacheData × Bool
  | [] => (cache, true)
  | (idStr, data) :: rest =>
    match atoi idStr with
    | none => (cache, false)
    | some id =>
      match unmarshalMessage data with
      | none => (cache, false)
      | some message =>
        restoreCacheFromDB (cachePutKey cache (itoa id) message) rest

/-- Whether one durable row would be restored without error: its `id`
scans into an `int` and its `data` unmarshals. -/
def rowOk (r : String × String) : Bool :=
  (atoi r.1).isSome && (unmarshalMessage r.2).isSome

/-- The cache key a durable row is restored under: `strconv.Itoa` of the
scanned `id`. -/
def rowKey (r : String × String) : String :=
  match atoi r.1 with
  | some id => itoa id
  | none => ""

/-- The effect of one successfully restored row on the cache (identity on
a row that would error). -/
def applyRow (c : CacheData) (r : String × String) : CacheData :=
  match atoi r.1, unmarshalMessage r.2 with
  | some id, some message => cachePutKey c (itoa id) message
  | _, _ => c

/-- Observable steps of the per-message ingestion callback, in program
order. -/
inductive PipeEvent where
  | cacheWrite (key : String)
  | dbSubmit (id : String) (payload : String)
deriving DecidableEq, Repr

/-- Result of one ingestion-callback run. -/
structure PipeResult where
  cache  : CacheData
  db     : List (String × String)
  events : List PipeEvent

/-- The NATS subscription callback (lines 120-137) together with
`saveMessageToDB` (lines 180-192): unmarshal the payload (on error log
and return); write the message into the cache under `message.OrderUID`;
marshal it back and submit `(message.OrderUID, data)` to
`INSERT INTO messages (id, data)`.  `insertOk` models whether that
`db.Exec` succeeds; on failure the error is only logged, nothing else
happens.  `events` records the two observable steps in program order. -/
def processMessage (cache : CacheData) (db : List (String × String))
    (insertOk : Bool) (payload : String) : PipeResult :=
  match unmarshalMessage payload with
  | none => ⟨cache, db, []⟩
  | some message =>
    let cache2 := cachePutKey cache message.orderUID message
    let data := marshalMessage message
    let db2 := if insertOk then db ++ [(message.orderUID, data)] else db
    ⟨cache2, db2, [.cacheWrite message.orderUID,
                   .dbSubmit message.orderUID data]⟩

/-- The externally observable outcomes of `getDataFromCacheHandler`
(lines 195-222): 400 "Invalid ID", 404 "Message not found",
500 "Failed to marshal data", or 200 with the JSON body. -/
inductive HandlerResult where
  | invalidID
  | notFound
  | serverError
  | ok (body : String)
deriving DecidableEq, Repr

/-- `getDataFromCacheHandler` (lines 195-222): read the `id` query
parameter (`""` when absent), `strconv.Atoi` it (error → 400), look up
`cache.data[strconv.Itoa(id)]` (miss → 404), `json.Marshal` the message
(error → 500, unreachable for this type) and reply 200 with the JSON. -/
def getDataFromCacheHandler (cache : CacheData) (idStr : String) :
    HandlerResult :=
  match atoi idStr with
  | none => .invalidID
  | some id =>
    match cacheGet cache (itoa id) with
    | none => .notFound
    | some message =>
      match marshalMessageResult message with
      | none => .serverError
      | some jsonData => .ok jsonData

/-- Startup-lifecycle events of `main` (lines 224-248) and of the
`subscribeToNATS` goroutine (lines 106-146). -/
inductive StartEvent where
  | connectDB
  | connectNATS
  | restoreCache
  | subscribeChannel
  | serveHTTP
deriving DecidableEq, Repr

/-- Program order inside the `subscribeToNATS` goroutine: connect to
NATS, restore the cache from Postgres, subscribe to the channel. -/
def natsTaskTrace : List StartEvent :=
  [.connectNATS, .restoreCache, .subscribeChannel]

/-- Program order of what `main` does after spawning the goroutine:
start serving HTTP queries. -/
def httpTaskTrace : List StartEvent := [.serveHTTP]

/-- `cs` is an interleaving (order-preserving merge) of `as` and `bs`. -/
def isMerge [DecidableEq α] : List α → List α → List α → Bool
  | as, bs, [] => as.isEmpty && bs.isEmpty
  | as, bs, c :: cs =>
    (match as with
     | a :: as2 => a == c && isMerge as2 bs cs
     | [] => false)
    ||
    (match bs with
     | b :: bs2 => b == c && isMerge as bs2 cs
     | [] => false)

/-- The startup traces `main` can produce: first the Postgres connection
(line 231; fatal on failure), then — because line 238 spawns
`subscribeToNATS` with `go` and line 244 starts the HTTP server in the
original goroutine — any interleaving of the goroutine's trace with the
HTTP-server start. -/
def validStartupTrace (t : List StartEvent) : Bool :=
  match t with
  | .connectDB :: rest => isMerge natsTaskTrace httpTaskTrace rest
  | _ => false

/-- A minimal valid inbound payload with order id `"x"`. -/
def payloadX : String := "\x7b\"order_uid\":\"x\"\x7d"

/-- A minimal valid inbound payload with order id `"a"`. -/
def payloadA : String := "\x7b\"order_uid\":\"a\"\x7d"

/-- A minimal valid inbound payload with order id `"b"`. -/
def payloadB : String := "\x7b\"order_uid\":\"b\"\x7d"

/-- A minimal valid inbound payload with order id `"order-1"`. -/
def payloadOrder1 : String := "\x7b\"order_uid\":\"order-1\"\x7d"

/-- The empty JSON object: decodes without error into the zero record. -/
def payloadEmptyObj : String := "\x7b\x7d"

/-- A minimal valid inbound payload with the numeric order id `"7"`. -/
def payload7 : String := "\x7b\"order_uid\":\"7\"\x7d"

/-- The record `payloadX` decodes to. -/
def msgX : Message := { zeroMessage with orderUID := "x" }

/-- The record `payloadA` decodes to. -/
def msgA : Message := { zeroMessage with orderUID := "a" }

/-- The record `payloadOrder1` decodes to. -/
def msgOrder1 : Message := { zeroMessage with orderUID := "order-1" }

/-- The record `payload7` decodes to. -/
def msg7 : Message := { zeroMessage with orderUID := "7" }

/-- A minimal valid inbound payload whose order id `"007"` parses as an
integer but is not its canonical decimal rendering. -/
def payload007 : String := "\x7b\"order_uid\":\"007\"\x7d"

/-- The record `payload007` decodes to. -/
def msg007 : Message := { zeroMessage with orderUID := "007" }

theorem natToDigitsAux_ne_nil (fuel : Nat) :
    ∀ (n : Nat) (acc : List Char), acc ≠ [] → natToDigitsAux fuel n acc ≠ [] := by
  induction fuel with
  | zero => intro n acc h; simpa [natToDigitsAux] using h
  | succ f ih =>
    intro n acc h
    cases n with
    | zero => simpa [natToDigitsAux] using h
    | succ m =>
      simp only [natToDigitsAux]
      exact ih _ _ (by simp)

theorem natToString_ne_empty (n : Nat) : natToString n ≠ "" := by
  unfold natToString
  cases n with
  | zero => simp
  | succ m =>
    simp only [Nat.succ_ne_zero, if_false]
    intro h
    have hdata : (natToDigitsAux (m + 1 + 1) (m + 1) []).asString.data = "".data :=
        congrArg String.data h
    simp only [List.asString] at hdata
    have : natToDigitsAux (m + 1 + 1) (m + 1) [] = [] := hdata
    have hne : natToDigitsAux (m + 1 + 1) (m + 1) [] ≠ [] := by
      simp only [natToDigitsAux]
      exact natToDigitsAux_ne_nil _ _ _ (by simp)
    exact hne this

/-- `strconv.Itoa` never renders the empty string. -/
theorem itoa_ne_empty (i : Int) : itoa i ≠ "" := by
  unfold itoa
  by_cases h : i < 0
  · simp only [h, if_true]
    intro heq
    have : ("-" ++ natToString i.natAbs).data = "".data := congrArg String.data heq
    simp [String.data_append, String.append] at this
  · simp only [h, if_false]
    exact natToString_ne_empty _

/-- When every row scans and decodes, recovery is the left fold of
`applyRow` and reports success. -/
theorem restore_eq_foldl (rows : List (String × String)) :
    ∀ cache : CacheData, (∀ r ∈ rows, rowOk r = true) →
      restoreCacheFromDB cache rows = (rows.foldl applyRow cache, true) := by
  induction rows with
  | nil => intro cache _; rfl
  | cons r rest ih =>
    intro cache hok
    obtain ⟨idStr, data⟩ := r
    have hr : rowOk (idStr, data) = true := hok _ (List.mem_cons_self _ _)
    simp only [rowOk, Bool.and_eq_true, Option.isSome_iff_exists] at hr
    obtain ⟨⟨id, hid⟩, ⟨message, hmsg⟩⟩ := hr
    simp only [restoreCacheFromDB, hid, hmsg, List.foldl_cons]
    have happ : applyRow cache (idStr, data) = cachePutKey cache (itoa id) message := by
      simp [applyRow, hid, hmsg]
    rw [happ]
    exact ih _ fun r hr => hok r (List.mem_cons_of_mem _ hr)

/-- `applyRow` is pointwise-congruent: pointwise-equal caches stay
pointwise equal. -/
theorem applyRow_congr {c1 c2 : CacheData} (h : ∀ k, c1 k = c2 k)
    (r : String × String) : ∀ k, applyRow c1 r k = applyRow c2 r k := by
  intro k
  unfold applyRow
  cases atoi r.1 with
  | none => exact h k
  | some id =>
    cases unmarshalMessage r.2 with
    | none => exact h k
    | some message => simp [cachePutKey, h k]

theorem foldl_applyRow_congr (rows : List (String × String)) :
    ∀ {c1 c2 : CacheData}, (∀ k, c1 k = c2 k) →
      ∀ k, rows.foldl applyRow c1 k = rows.foldl applyRow c2 k := by
  induction rows with
  | nil => intro c1 c2 h k; exact h k
  | cons r rest ih =>
    intro c1 c2 h k
    simp only [List.foldl_cons]
    exact ih (applyRow_congr h r) k

/-- Two rows restored under distinct cache keys commute (pointwise). -/
theorem applyRow_comm {x y : String × String} (hkey : rowKey x ≠ rowKey y) :
    ∀ (c : CacheData) (k : String),
      applyRow (applyRow c x) y k = applyRow (applyRow c y) x k := by
  intro c k
  unfold applyRow rowKey at *
  cases hx1 : atoi x.1 with
  | none => simp [hx1]
  | some idx =>
    cases hx2 : unmarshalMessage x.2 with
    | none => simp [hx1, hx2]
    | some mx =>
      cases hy1 : atoi y.1 with
      | none => simp [hx1, hx2, hy1]
      | some idy =>
        cases hy2 : unmarshalMessage y.2 with
        | none => simp [hx1, hx2, hy1, hy2]
        | some my =>
          simp only [hx1, hx2, hy1, hy2] at hkey ⊢
          unfold cachePutKey
          by_cases h1 : k = itoa idy
          · subst h1
            simp [Ne.symm hkey]
          · by_cases h2 : k = itoa idx
            · subst h2
              simp [hkey]
            · simp [h1, h2]

/-- The final cache of a fold of `applyRow` is independent of row order,
provided the target cache keys of the rows are pairwise distinct. -/
theorem foldl_applyRow_perm {rows1 rows2 : List (String × String)}
    (hperm : rows1.Perm rows2) (hnd : (rows1.map rowKey).Nodup) :
    ∀ (c : CacheData) (k : String),
      rows1.foldl applyRow c k = rows2.foldl applyRow c k := by
  induction hperm with
  | nil => intro c k; rfl
  | cons x h ih =>
    intro c k
    simp only [List.foldl_cons]
    exact ih (by simpa using hnd.of_cons) _ k
  | swap x y l =>
    intro c k
    simp only [List.foldl_cons]
    have hkey : rowKey y ≠ rowKey x := by
      simp only [List.map_cons, List.nodup_cons, List.mem_cons] at hnd
      exact fun h => hnd.1 (Or.inl h)
    exact foldl_applyRow_congr l (applyRow_comm hkey c) k
  | trans h1 h2 ih1 ih2 =>
    intro c k
    have hnd2 := (h1.map rowKey).nodup hnd
    exact (ih1 hnd c k).trans (ih2 hnd2 c k)

/-- A key no put inserted stays absent through a fold of ingestion puts. -/
theorem foldl_cachePut_not_mem (rs : List Message) :
    ∀ (c : CacheData) (k : String), c k = none →
      k ∉ rs.map (fun m => m.orderUID) → (rs.foldl cachePut c) k = none := by
  induction rs with
  | nil => intro c k hc _; exact hc
  | cons r rest ih =>
    intro c k hc hk
    simp only [List.map_cons, List.mem_cons, not_or] at hk
    simp only [List.foldl_cons]
    refine ih _ _ ?_ hk.2
    simp only [cachePut, cachePutKey]
    rw [if_neg hk.1]
    exact hc

/-- The left component of an interleaving embeds into it as a sublist
(its internal order is preserved). -/
theorem isMerge_sublist [DecidableEq α] :
    ∀ (cs as bs : List α), isMerge as bs cs = true → as.Sublist cs := by
  intro cs
  induction cs with
  | nil =>
    intro as bs h
    simp only [isMerge, Bool.and_eq_true, List.isEmpty_iff] at h
    rw [h.1]
  | cons c cs ih =>
    intro as bs h
    simp only [isMerge] at h
    rcases (Bool.or_eq_true _ _).mp h with h | h
    · cases as with
      | nil => simp at h
      | cons a as2 =>
        simp only [Bool.and_eq_true, beq_iff_eq] at h
        rw [h.1]
        exact List.Sublist.cons₂ c (ih as2 bs h.2)
    · cases bs with
      | nil => simp at h
      | cons b bs2 =>
        simp only [Bool.and_eq_true, beq_iff_eq] at h
        exact List.Sublist.cons c (ih as bs2 h.2)

/-- C1: a row persisted with the string identifier `"abc123"` is not
retrievable after recovery.  The code contradicts itself: `saveMessageToDB`
persists the row as `(OrderUID, payload)` with a string id (line 186), but
`restoreCacheFromDB` scans the id column into `var id int` (line 157) —
the scan of `"abc123"` fails and recovery aborts with the error — and
`getDataFromCacheHandler` runs `strconv.Atoi` on the query parameter
(line 198), so `lookup("abc123")` answers `Invalid ID` (HTTP 400) no
matter what the cache holds; it can never return the payload. -/
theorem abc123_not_retrievable :
    (∀ cache : CacheData,
        getDataFromCacheHandler cache "abc123" = HandlerResult.invalidID) ∧
    (∀ payload : String,
        restoreCacheFromDB emptyCache [("abc123", payload)] =
          (emptyCache, false)) :=
  ⟨fun _ => rfl, fun _ => rfl⟩

/-- C2 (counterexample): the durable store holds rows with ids
`"1", "2", "3"` — pairwise distinct — where row `"2"` carries an
undecodable payload and row `"3"` a perfectly decodable one.  The claim
says row `"3"` is still loaded and retrievable; in fact recovery returns
the decode error at row `"2"` (flag `false`) and row `"3"` is absent from
the cache. -/
theorem restore_skip_refuted :
    rowOk ("3", payloadB) = true ∧
    ([("1", payloadA), ("2", "oops"), ("3", payloadB)].map Prod.fst).Nodup ∧
    (restoreCacheFromDB emptyCache
        [("1", payloadA), ("2", "oops"), ("3", payloadB)]).2 = false ∧
    cacheGet (restoreCacheFromDB emptyCache
        [("1", payloadA), ("2", "oops"), ("3", payloadB)]).1 "3" = none := by
  decide

/-- C2 (amended): a stored row that fails to scan or decode does not
merely cost that one row — `restoreCacheFromDB` returns the error at the
first such row, so the rows before it are loaded into the cache and the
rows after it are not processed at all (the caller only logs the returned
error, line 116). -/
theorem restore_aborts_at_first_bad_row (pre : List (String × String))
    (bad : String × String) (post : List (String × String))
    (cache : CacheData) (hok : ∀ r ∈ pre, rowOk r = true)
    (hbad : rowOk bad = false) :
    restoreCacheFromDB cache (pre ++ bad :: post) =
      (pre.foldl applyRow cache, false) := by
  induction pre generalizing cache with
  | nil =>
    obtain ⟨badId, badData⟩ := bad
    simp only [List.nil_append, List.foldl_nil]
    simp only [rowOk, Bool.and_eq_false_iff] at hbad
    rcases hbad with hbad | hbad
    · have hnone : atoi badId = none :=
        Option.not_isSome_iff_eq_none.mp (by simp [hbad])
      simp only [restoreCacheFromDB, hnone]
    · have hnone : unmarshalMessage badData = none :=
        Option.not_isSome_iff_eq_none.mp (by simp [hbad])
      simp only [restoreCacheFromDB, hnone]
      cases atoi badId <;> rfl
  | cons r rest ih =>
    obtain ⟨idStr, data⟩ := r
    have hr : rowOk (idStr, data) = true := hok _ (List.mem_cons_self _ _)
    simp only [rowOk, Bool.and_eq_true, Option.isSome_iff_exists] at hr
    obtain ⟨⟨id, hid⟩, ⟨message, hmsg⟩⟩ := hr
    simp only [List.cons_append, restoreCacheFromDB, hid, hmsg, List.foldl_cons]
    have happ : applyRow cache (idStr, data) = cachePutKey cache (itoa id) message := by
      simp [applyRow, hid, hmsg]
    rw [happ]
    exact ih _ fun r hr => hok r (List.mem_cons_of_mem _ hr)

/-- C2 (witness): the amended theorem applied to the concrete store
`[("1", payloadA), ("2", "oops"), ("3", payloadB)]`. -/
theorem restore_aborts_at_first_bad_row_witness :
    (∀ r ∈ [(("1" : String), payloadA)], rowOk r = true) ∧
    rowOk ("2", "oops") = false ∧
    restoreCacheFromDB emptyCache
        ([("1", payloadA)] ++ ("2", "oops") :: [("3", payloadB)]) =
      ([(("1" : String), payloadA)].foldl applyRow emptyCache, false) :=
  ⟨by decide, by decide,
    restore_aborts_at_first_bad_row [("1", payloadA)] ("2", "oops")
      [("3", payloadB)] emptyCache (by decide) (by decide)⟩

/-- C3 (counterexample): the program admits the startup trace in which
the HTTP server begins serving queries (line 244 runs in the original
goroutine) before the spawned `subscribeToNATS` goroutine has attempted
recovery — so query serving is NOT ordered after recovery. -/
theorem serve_before_recovery_trace :
    validStartupTrace
        [.connectDB, .serveHTTP, .connectNATS, .restoreCache,
         .subscribeChannel] = true ∧
    List.indexOf StartEvent.serveHTTP
        [.connectDB, .serveHTTP, .connectNATS, .restoreCache,
         .subscribeChannel] <
      List.indexOf StartEvent.restoreCache
        [.connectDB, .serveHTTP, .connectNATS, .restoreCache,
         .subscribeChannel] := by
  decide

/-- C3 (amended): in every startup trace the program admits, the
durable-store connection comes first, and recovery strictly precedes
message-stream subscription (these three phases are ordered as the claim
says); query serving, however, runs concurrently with the goroutine and
is not ordered after recovery. -/
theorem startup_phase_order (t : List StartEvent)
    (h : validStartupTrace t = true) :
    List.Sublist [.connectDB, .connectNATS, .restoreCache,
      .subscribeChannel] t := by
  cases t with
  | nil => simp [validStartupTrace] at h
  | cons e rest =>
    cases e with
    | connectDB =>
      have hm : isMerge natsTaskTrace httpTaskTrace rest = true := h
      show List.Sublist (StartEvent.connectDB :: natsTaskTrace)
        (StartEvent.connectDB :: rest)
      exact List.Sublist.cons₂ _ (isMerge_sublist rest _ _ hm)
    | connectNATS => simp [validStartupTrace] at h
    | restoreCache => simp [validStartupTrace] at h
    | subscribeChannel => simp [validStartupTrace] at h
    | serveHTTP => simp [validStartupTrace] at h

/-- C3 (witness): the amended theorem applied to the trace in which the
goroutine runs to completion before the HTTP server starts. -/
theorem startup_phase_order_witness :
    validStartupTrace
        [.connectDB, .connectNATS, .restoreCache, .subscribeChannel,
         .serveHTTP] = true ∧
    List.Sublist
      [StartEvent.connectDB, .connectNATS, .restoreCache, .subscribeChannel]
      [.connectDB, .connectNATS, .restoreCache, .subscribeChannel,
       .serveHTTP] :=
  ⟨by decide,
    startup_phase_order
      [.connectDB, .connectNATS, .restoreCache, .subscribeChannel,
       .serveHTTP] (by decide)⟩

/-- C4 (counterexample): the inbound payload `payloadX` decodes
successfully, and exactly one row keyed by its order id is submitted to
the durable store — but the persisted payload is NOT the inbound bytes:
it is the re-encoding of the decoded record (`json.Marshal` after
`json.Unmarshal`), which here differs from the inbound document (the
re-encoding spells out every field of the struct). -/
theorem persisted_not_verbatim :
    (unmarshalMessage payloadX).isSome = true ∧
    (processMessage emptyCache [] true payloadX).db.map Prod.fst = ["x"] ∧
    (processMessage emptyCache [] true payloadX).db.map Prod.snd ≠
      [payloadX] := by
  decide

/-- C4 (amended): for every inbound payload that decodes successfully,
the bytes submitted to the durable store are the canonical re-encoding
`json.Marshal` of the decoded record, stored as the pair
`(message.OrderUID, data)` — equal to the inbound payload only when the
inbound document already is that canonical form. -/
theorem persisted_is_canonical_reencoding (cache : CacheData)
    (db : List (String × String)) (payload : String) (message : Message)
    (h : unmarshalMessage payload = some message) :
    (processMessage cache db true payload).db =
      db ++ [(message.orderUID, marshalMessage message)] := by
  simp [processMessage, h]

/-- C4 (witness): the amended theorem applied to `payloadX`. -/
theorem persisted_is_canonical_reencoding_witness :
    unmarshalMessage payloadX = some msgX ∧
    (processMessage emptyCache [] true payloadX).db =
      [] ++ [(msgX.orderUID, marshalMessage msgX)] :=
  ⟨by decide,
    persisted_is_canonical_reencoding emptyCache [] payloadX msgX (by decide)⟩

/-- C5 (counterexample): after ingesting the valid payload with order id
`"order-1"`, the cache does contain the record — yet `lookup("order-1")`
through the query service does not succeed: the handler parses the
identifier with `strconv.Atoi` (line 198) and answers `Invalid ID`. -/
theorem ingest_lookup_refuted :
    cacheGet (processMessage emptyCache [] false payloadOrder1).cache
        "order-1" = some msgOrder1 ∧
    getDataFromCacheHandler
        (processMessage emptyCache [] false payloadOrder1).cache "order-1" =
      HandlerResult.invalidID := by
  decide

/-- C5 (amended): for every inbound payload that decodes successfully,
the callback writes the record into the cache before submitting it to the
durable store (the event order is cache write, then store submission),
and the cache contains the record whether or not the durable write
succeeds.  An immediate HTTP lookup on its identifier, however, succeeds
only when the identifier is the canonical decimal rendering of a 64-bit
integer (it survives the handler's Atoi/Itoa round-trip); a
non-parseable identifier (such as `"order-1"`) is answered `Invalid ID`,
and a parseable but non-canonical identifier (such as `"007"`) is looked
up under its canonical rendering `"7"` instead of the record's own key,
so its lookup outcome is exactly what it was before the ingest (for
example, not-found on an otherwise empty cache). -/
theorem ingest_cache_before_store (cache : CacheData)
    (db : List (String × String)) (insertOk : Bool) (payload : String)
    (message : Message) (h : unmarshalMessage payload = some message) :
    cacheGet (processMessage cache db insertOk payload).cache
        message.orderUID = some message ∧
    (processMessage cache db insertOk payload).events =
      [.cacheWrite message.orderUID,
       .dbSubmit message.orderUID (marshalMessage message)] ∧
    (∀ n : Int, atoi message.orderUID = some n →
      itoa n = message.orderUID →
      getDataFromCacheHandler (processMessage cache db insertOk payload).cache
          message.orderUID = HandlerResult.ok (marshalMessage message)) ∧
    (atoi message.orderUID = none →
      getDataFromCacheHandler (processMessage cache db insertOk payload).cache
          message.orderUID = HandlerResult.invalidID) ∧
    (∀ n : Int, atoi message.orderUID = some n →
      itoa n ≠ message.orderUID →
      getDataFromCacheHandler (processMessage cache db insertOk payload).cache
          message.orderUID =
        getDataFromCacheHandler cache message.orderUID) := by
  refine ⟨?_, ?_, ?_, ?_, ?_⟩
  · simp [processMessage, h, cacheGet, cachePutKey]
  · simp [processMessage, h]
  · intro n hn hit
    simp only [processMessage, h]
    unfold getDataFromCacheHandler
    rw [hn]
    simp [hit, cacheGet, cachePutKey, marshalMessageResult]
  · intro hn
    simp only [processMessage, h]
    simp [getDataFromCacheHandler, hn]
  · intro n hn hne
    simp only [processMessage, h]
    simp [getDataFromCacheHandler, hn, cacheGet, cachePutKey, hne]

/-- C5 (witness): the amended theorem applied with the durable write
failing (`insertOk = false`) to `payload7` (canonical id `"7"`: lookup
succeeds), to `payloadOrder1` (non-parseable id `"order-1"`: lookup is
`Invalid ID`), and to `payload007` (parseable non-canonical id `"007"`:
lookup is unchanged by the ingest, hence not-found on the empty
cache). -/
theorem ingest_cache_before_store_witness :
    unmarshalMessage payload7 = some msg7 ∧
    cacheGet (processMessage emptyCache [] false payload7).cache "7" =
      some msg7 ∧
    getDataFromCacheHandler (processMessage emptyCache [] false payload7).cache
        "7" = HandlerResult.ok (marshalMessage msg7) ∧
    getDataFromCacheHandler
        (processMessage emptyCache [] false payloadOrder1).cache "order-1" =
      HandlerResult.invalidID ∧
    getDataFromCacheHandler
        (processMessage emptyCache [] false payload007).cache "007" =
      getDataFromCacheHandler emptyCache "007" ∧
    getDataFromCacheHandler emptyCache "007" = HandlerResult.notFound :=
  ⟨by decide,
    (ingest_cache_before_store emptyCache [] false payload7 msg7 (by decide)).1,
    (ingest_cache_before_store emptyCache [] false payload7 msg7
        (by decide)).2.2.1 7 (by decide) (by decide),
    (ingest_cache_before_store emptyCache [] false payloadOrder1 msgOrder1
        (by decide)).2.2.2.1 (by decide),
    (ingest_cache_before_store emptyCache [] false payload007 msg007
        (by decide)).2.2.2.2 7 (by decide) (by decide),
    by decide⟩

/-- C6: the cache is an exact map: after putting a record, getting its
order id returns that record field-for-field (the whole `Message`,
including the `items` sequence, is the map's value — equality is
structural, so item order is preserved); and a get on an identifier on
which no put was ever performed returns not-found (`none`). -/
theorem cache_put_get_roundtrip (c : CacheData) (r : Message)
    (rs : List Message) (k : String)
    (hk : k ∉ rs.map fun m => m.orderUID) :
    cacheGet (cachePut c r) r.orderUID = some r ∧
    cacheGet (buildCache rs) k = none := by
  constructor
  · simp [cachePut, cachePutKey, cacheGet]
  · exact foldl_cachePut_not_mem rs emptyCache k rfl hk

/-- C6 (witness): put `msgA`, get `"a"` back; get `"zz"` — never
inserted — is not found. -/
theorem cache_put_get_roundtrip_witness :
    cacheGet (cachePut emptyCache msgA) "a" = some msgA ∧
    cacheGet (buildCache [msgA]) "zz" = none :=
  cache_put_get_roundtrip emptyCache msgA [msgA] "zz" (by decide)

/-- C7 (counterexample): two stored rows with distinct (unique) stored
identifiers `"x"` and `"2"`, where the `"x"` row does not survive the
integer scan.  Enumerating `"x"` first aborts recovery before loading
anything; enumerating `"2"` first loads it and then aborts — the two
enumeration orders of the same row set yield different final caches. -/
theorem restore_order_dependent :
    ([("x", "oops"), ("2", payloadB)] : List (String × String)).Perm
        [("2", payloadB), ("x", "oops")] ∧
    ([("x", "oops"), ("2", payloadB)].map Prod.fst).Nodup ∧
    cacheGet (restoreCacheFromDB emptyCache
        [("x", "oops"), ("2", payloadB)]).1 "2" ≠
      cacheGet (restoreCacheFromDB emptyCache
        [("2", payloadB), ("x", "oops")]).1 "2" := by
  decide

/-- C7 (amended): when every stored row scans and decodes successfully
and the cache keys the rows restore to (`Itoa` of the scanned integer
ids) are pairwise distinct, the final cache state after recovery is the
same for every enumeration order of the rows. -/
theorem restore_order_independent (rows1 rows2 : List (String × String))
    (hperm : rows1.Perm rows2) (hok : ∀ r ∈ rows1, rowOk r = true)
    (hnd : (rows1.map rowKey).Nodup) (k : String) :
    cacheGet (restoreCacheFromDB emptyCache rows1).1 k =
      cacheGet (restoreCacheFromDB emptyCache rows2).1 k := by
  have hok2 : ∀ r ∈ rows2, rowOk r = true :=
    fun r hr => hok r (hperm.symm.subset hr)
  rw [restore_eq_foldl rows1 emptyCache hok, restore_eq_foldl rows2 emptyCache hok2]
  exact foldl_applyRow_perm hperm hnd emptyCache k

/-- C7 (witness): the amended theorem applied to two enumeration orders
of the decodable rows `("1", payloadA)` and `("2", payloadB)`. -/
theorem restore_order_independent_witness :
    ([("1", payloadA), ("2", payloadB)] : List (String × String)).Perm
        [("2", payloadB), ("1", payloadA)] ∧
    cacheGet (restoreCacheFromDB emptyCache
        [("1", payloadA), ("2", payloadB)]).1 "1" =
      cacheGet (restoreCacheFromDB emptyCache
        [("2", payloadB), ("1", payloadA)]).1 "1" :=
  ⟨by decide,
    restore_order_independent [("1", payloadA), ("2", payloadB)]
      [("2", payloadB), ("1", payloadA)] (by decide) (by decide) (by decide)
      "1"⟩

/-- C8: every query answers exactly one of invalid-request (400),
not-found (404) or found (200 with the marshalled record); the
internal-server-error branch (500, marshal failure) is unreachable,
because `json.Marshal` cannot fail on a `Message` (see
`marshalMessage`): the caller never observes an internal persistence,
decode or serialization failure. -/
theorem handler_three_outcomes (cache : CacheData) (idStr : String) :
    getDataFromCacheHandler cache idStr ≠ HandlerResult.serverError ∧
    (getDataFromCacheHandler cache idStr = HandlerResult.invalidID ∨
     getDataFromCacheHandler cache idStr = HandlerResult.notFound ∨
     ∃ body, getDataFromCacheHandler cache idStr = HandlerResult.ok body) := by
  rcases hA : atoi idStr with _ | id
  · constructor
    · simp [getDataFromCacheHandler, hA]
    · exact Or.inl (by simp [getDataFromCacheHandler, hA])
  · rcases hG : cacheGet cache (itoa id) with _ | message
    · constructor
      · simp [getDataFromCacheHandler, hA, hG]
      · exact Or.inr (Or.inl (by simp [getDataFromCacheHandler, hA, hG]))
    · constructor
      · simp [getDataFromCacheHandler, hA, hG, marshalMessageResult]
      · exact Or.inr (Or.inr ⟨marshalMessage message,
          by simp [getDataFromCacheHandler, hA, hG, marshalMessageResult]⟩)

/-- C9 (counterexample): the empty JSON object decodes without error to
the zero record, whose order id is the empty string, and ingestion
stores it in the cache under the empty-string key — no operation
validates non-emptiness. -/
theorem empty_order_uid_cached :
    unmarshalMessage payloadEmptyObj = some zeroMessage ∧
    zeroMessage.orderUID = "" ∧
    cacheGet (processMessage emptyCache [] true payloadEmptyObj).cache "" =
      some zeroMessage := by
  decide

/-- C9 (amended): the recovery path never stores a cache entry under the
empty key — its keys are `strconv.Itoa` renderings of integers, which are
never empty — but the ingestion path performs no validation: it stores
the decoded record under exactly `message.OrderUID`, empty or not. -/
theorem recovery_keys_nonempty_ingest_unvalidated
    (rows : List (String × String)) (cache : CacheData)
    (h : cacheGet cache "" = none) :
    cacheGet (restoreCacheFromDB cache rows).1 "" = none ∧
    (∀ (c : CacheData) (db : List (String × String)) (insertOk : Bool)
        (payload : String) (message : Message),
      unmarshalMessage payload = some message →
      ∀ k, cacheGet (processMessage c db insertOk payload).cache k =
        if k = message.orderUID then some message else cacheGet c k) := by
  constructor
  · induction rows generalizing cache with
    | nil => exact h
    | cons r rest ih =>
      obtain ⟨idStr, data⟩ := r
      simp only [restoreCacheFromDB]
      cases atoi idStr with
      | none => exact h
      | some id =>
        cases unmarshalMessage data with
        | none => exact h
        | some message =>
          refine ih _ ?_
          simp only [cacheGet, cachePutKey]
          rw [if_neg fun heq => itoa_ne_empty id heq.symm]
          exact h
  · intro c db insertOk payload message hm k
    simp [processMessage, hm, cacheGet, cachePutKey]

/-- C9 (witness): the amended theorem applied to a one-row store and to
the empty-object payload (whose decoded order id is `""`). -/
theorem recovery_keys_nonempty_ingest_unvalidated_witness :
    cacheGet (restoreCacheFromDB emptyCache [("1", payloadA)]).1 "" = none ∧
    cacheGet (processMessage emptyCache [] true payloadEmptyObj).cache "" =
      if "" = zeroMessage.orderUID then some zeroMessage
      else cacheGet emptyCache "" :=
  ⟨(recovery_keys_nonempty_ingest_unvalidated [("1", payloadA)] emptyCache
      rfl).1,
    (recovery_keys_nonempty_ingest_unvalidated [] emptyCache rfl).2
      emptyCache [] true payloadEmptyObj zeroMessage (by decide) ""⟩

/-- C10: the handler canonicalizes the identifier through
`strconv.Atoi` then `strconv.Itoa` before consulting the cache, so any
two parameter strings that parse to the same integer (such as `"007"`,
`"+7"` and `"7"`) receive the same outcome on the same cache state. -/
theorem handler_canonicalizes_id (cache : CacheData) (s1 s2 : String)
    (n : Int) (h1 : atoi s1 = some n) (h2 : atoi s2 = some n) :
    getDataFromCacheHandler cache s1 = getDataFromCacheHandler cache s2 := by
  unfold getDataFromCacheHandler
  rw [h1, h2]

/-- C10 (witness): `"007"` and `"+7"` both parse to 7 and receive the
same outcome. -/
theorem handler_canonicalizes_id_witness :
    atoi "007" = some 7 ∧ atoi "+7" = some 7 ∧
    getDataFromCacheHandler emptyCache "007" =
      getDataFromCacheHandler emptyCache "+7" :=
  ⟨by decide, by decide,
    handler_canonicalizes_id emptyCache "007" "+7" 7 (by decide) (by decide)⟩
